import Mathlib

/-!
A shallow embedding of `src/index.py` from the gemini-desktop repository: a
browser-driving agent loop in which a remote model returns batches of abstract
UI actions (function calls) that are translated into concrete browser input
events, executed behind a human safety gate, and answered with structured
function responses carrying one post-batch screenshot.

External effects are modelled by explicit oracles:
  * the browser (Playwright `page`) is an oracle `Event → Except String Unit`
    deciding whether each primitive input event raises, plus a `PageState`
    (current URL and screenshot bytes) per capture point;
  * the remote model is an oracle `List Content → List Part` returning the
    parts of the next candidate content for a given conversation history;
  * the operator console is an oracle of booleans (true = approve), one per
    safety confirmation, since the prompt re-asks until a valid token arrives.

Python dynamic values are modelled by `Value`; Python `str`, `int()` and
truthiness coercions are modelled exactly (strings restricted to their
character lists so that everything evaluates inside the kernel; quote
characters of the original error messages are omitted).  Python float
arithmetic in `denormalize_x` and `denormalize_y` is modelled bit-exactly as
IEEE-754 double precision: correctly rounded (round-half-even) division,
integer-to-double conversion and multiplication on exact mantissa/exponent
pairs, with `int()` as toward-zero truncation; only overflow to infinity, far
outside any viewport geometry, is left unmodelled.
-/

set_option maxRecDepth 100000

set_option exponentiation.threshold 4096

namespace GeminiDesktop

/-- Python-style dynamic values appearing in a function call argument mapping.
Dict payloads (only `safety_decision` in the source) are string-to-string maps. -/
inductive Value where
  | none : Value
  | str : String → Value
  | int : Int → Value
  | bool : Bool → Value
  | dict : List (String × String) → Value
  deriving DecidableEq

/-- Decidable equality for `Except`, used to evaluate plans on concrete inputs. -/
instance {α β : Type} [DecidableEq α] [DecidableEq β] : DecidableEq (Except α β) := fun a b =>
  match a, b with
  | Except.ok x, Except.ok y =>
    if h : x = y then Decidable.isTrue (by rw [h]) else Decidable.isFalse (by simp [h])
  | Except.error x, Except.error y =>
    if h : x = y then Decidable.isTrue (by rw [h]) else Decidable.isFalse (by simp [h])
  | Except.ok _, Except.error _ => Decidable.isFalse (by simp)
  | Except.error _, Except.ok _ => Decidable.isFalse (by simp)

/-- ASCII model of Python `str.lower()`. -/
def pyLower (s : String) : String := (s.data.map Char.toLower).asString

/-- Model of Python `str.startswith(pat)` over character lists. -/
def pyStartsWithAux : List Char → List Char → Bool
  | _, [] => true
  | [], _ :: _ => false
  | c :: cs, d :: ds => c = d && pyStartsWithAux cs ds

/-- Model of Python `str.startswith(pat)`. -/
def pyStartsWith (s pat : String) : Bool := pyStartsWithAux s.data pat.data

/-- Model of Python `str.strip()`: drop whitespace from both ends. -/
def pyTrimList (cs : List Char) : List Char :=
  ((cs.dropWhile Char.isWhitespace).reverse.dropWhile Char.isWhitespace).reverse

/-- Model of Python `str.strip()`. -/
def pyTrim (s : String) : String := (pyTrimList s.data).asString

/-- ASCII model of Python `str.title()`: an alphabetic character is uppercased
when the previous character is not alphabetic and lowercased otherwise. -/
def pyTitleAux : Bool → List Char → List Char
  | _, [] => []
  | prevCased, c :: rest =>
    if c.isAlpha then
      (if prevCased then c.toLower else c.toUpper) :: pyTitleAux true rest
    else
      c :: pyTitleAux false rest

/-- ASCII model of Python `str.title()`. -/
def pyTitle (s : String) : String := (pyTitleAux false s.data).asString

/-- Accumulate a decimal digit string. -/
def digitsVal : Nat → List Char → Option Nat
  | acc, [] => Option.some acc
  | acc, c :: cs =>
    if c.isDigit then digitsVal (acc * 10 + (c.toNat - 48)) cs else Option.none

/-- Model of Python `int(s)` on strings: optional sign, decimal digits,
surrounding whitespace allowed; anything else raises. -/
def pyParseInt (s : String) : Option Int :=
  match pyTrimList s.data with
  | [] => Option.none
  | '-' :: cs =>
    match cs with
    | [] => Option.none
    | _ :: _ => (digitsVal 0 cs).map (fun n => -(n : Int))
  | '+' :: cs =>
    match cs with
    | [] => Option.none
    | _ :: _ => (digitsVal 0 cs).map (fun n => (n : Int))
  | cs => (digitsVal 0 cs).map (fun n => (n : Int))

/-- Model of Python `str(v)`. -/
def pyStr : Value → String
  | Value.none => "None"
  | Value.str s => s
  | Value.int n => toString n
  | Value.bool b => if b then "True" else "False"
  | Value.dict _ => "dict"

/-- Model of Python truthiness `bool(v)`. -/
def pyTruthy : Value → Bool
  | Value.none => false
  | Value.str s => !(s == "")
  | Value.int n => !(n == 0)
  | Value.bool b => b
  | Value.dict d => !d.isEmpty

/-- Model of Python `int(v)`: succeeds on ints, bools and well-formed numeric
strings, raises otherwise. -/
def pyInt : Value → Except String Int
  | Value.int n => Except.ok n
  | Value.bool b => Except.ok (if b then 1 else 0)
  | Value.str s =>
    match pyParseInt s with
    | Option.some n => Except.ok n
    | Option.none => Except.error ("invalid literal for int with base 10: " ++ s)
  | Value.none => Except.error "int argument must be a string or a number, not NoneType"
  | Value.dict _ => Except.error "int argument must be a string or a number, not dict"

/-- `args.get(k)` on the argument mapping. -/
def argsGet (args : List (String × Value)) (k : String) : Option Value :=
  (args.find? (fun p => p.1 == k)).map (fun p => p.2)

/-- `args.get(k, d)` on the argument mapping. -/
def argsGetD (args : List (String × Value)) (k : String) (d : Value) : Value :=
  (argsGet args k).getD d

/-- `args[k]` on the argument mapping: raises `KeyError` when missing. -/
def argsItem (args : List (String × Value)) (k : String) : Except String Value :=
  match argsGet args k with
  | Option.some v => Except.ok v
  | Option.none => Except.error ("KeyError: " ++ k)

/-- Recommended screen width from the source (`SCREEN_WIDTH = 1440`). -/
def SCREEN_WIDTH : Int := 1440

/-- Recommended screen height from the source (`SCREEN_HEIGHT = 900`). -/
def SCREEN_HEIGHT : Int := 900

/-! Python evaluates `x / 1000 * screen_width` in IEEE-754 double precision,
and its result can differ from the exact rational product (double rounding:
`int(350 / 1000 * 1440)` is 503 while the exact floor is 504), so the float
pipeline is modelled bit-exactly below.  A finite double is a sign, a mantissa
and a binary exponent; each CPython step — true division of ints, conversion
of an int operand to double, double multiplication — produces the correctly
rounded (round-half-even) double of the exact rational value, which the model
computes with integer arithmetic.  Overflow to infinity (and the overflow
errors Python raises near 10^308, far outside any viewport geometry) is not
modelled: the rounded finite value is used instead. -/

/-- Powers of two. -/
def pow2 (k : Nat) : Nat := 2 ^ k

/-- One step of a binary search for the floor base-2 logarithm: add `p` to the
accumulated exponent when `2 ^ (acc + p)` still fits below `n`. -/
def l2step (p acc n : Nat) : Nat := if 2 ^ (acc + p) ≤ n then acc + p else acc

/-- Floor base-2 logarithm of a positive natural, by binary search on the
exponent (correct for arguments below `2 ^ 2048`, far beyond every magnitude
in the model). -/
def natLog2 (n : Nat) : Nat :=
  l2step 1 (l2step 2 (l2step 4 (l2step 8 (l2step 16 (l2step 32 (l2step 64 (l2step 128
    (l2step 256 (l2step 512 (l2step 1024 0 n) n) n) n) n) n) n) n) n) n) n

/-- Whether `2 ^ e ≤ n / d` for positive naturals `n`, `d`. -/
def ratTwoPowLe (e : Int) (n d : Nat) : Bool :=
  if 0 ≤ e then pow2 e.toNat * d ≤ n else d ≤ n * pow2 (-e).toNat

/-- Floor base-2 logarithm of the positive rational `n / d`: the bit-length
difference is off by at most one, fixed by a single comparison. -/
def ratFloorLog2 (n d : Nat) : Int :=
  let g : Int := Int.ofNat (natLog2 n) - Int.ofNat (natLog2 d)
  if ratTwoPowLe g n d then g else g - 1

/-- Round `N / D` to an integer multiple of one, half to even (the IEEE-754
default rounding), after the caller has scaled the fraction. -/
def roundScaled (N D : Nat) (scale : Int) : Nat × Int :=
  let p := if 0 ≤ scale then (N, D * pow2 scale.toNat) else (N * pow2 (-scale).toNat, D)
  let q := p.1 / p.2
  let r := p.1 % p.2
  let m := if 2 * r < p.2 then q else if p.2 < 2 * r then q + 1 else if q % 2 = 0 then q else q + 1
  (m, scale)

/-- Correctly rounded positive double of `n / d` (`n`, `d` positive): mantissa
and exponent, 53 significant bits, exponents clamped at the subnormal quantum
`2 ^ (-1074)`. -/
def roundPosRatToDouble (n d : Nat) : Nat × Int :=
  let e := ratFloorLog2 n d
  let scale := max (e - 52) (-1074)
  roundScaled n d scale

/-- A finite IEEE-754 double: sign (true = negative), mantissa and binary
exponent, value `±mant · 2 ^ exp2`; zero is mantissa 0. -/
structure PyFloat where
  sign : Bool
  mant : Nat
  exp2 : Int

/-- The correctly rounded double of the signed rational `±(n / d)`. -/
def pyFloatOfRat (sgnNeg : Bool) (n d : Nat) : PyFloat :=
  if n = 0 then PyFloat.mk false 0 0
  else PyFloat.mk sgnNeg (roundPosRatToDouble n d).1 (roundPosRatToDouble n d).2

/-- CPython int/int true division `x / y`: the correctly rounded double of the
exact quotient (computed exactly from the arbitrary-precision operands). -/
def pyIntTrueDiv (x y : Int) : PyFloat :=
  pyFloatOfRat (decide (x < 0) != decide (y < 0)) x.natAbs y.natAbs

/-- CPython float * int: the int operand is converted to the nearest double,
then the 53-bit mantissas are multiplied exactly and the product is rounded
back to a double — both steps correctly rounded, as in IEEE-754. -/
def pyFloatMulInt (f : PyFloat) (y : Int) : PyFloat :=
  let yd := pyFloatOfRat (decide (y < 0)) y.natAbs 1
  if f.mant = 0 ∨ yd.mant = 0 then PyFloat.mk false 0 0
  else
    let M := f.mant * yd.mant
    let E := f.exp2 + yd.exp2
    let nd := if 0 ≤ E then (M * pow2 E.toNat, 1) else (M, pow2 (-E).toNat)
    pyFloatOfRat (f.sign != yd.sign) nd.1 nd.2

/-- Python `int()` on a double: truncation toward zero. -/
def pyFloatTrunc (f : PyFloat) : Int :=
  let mag : Nat := if 0 ≤ f.exp2 then f.mant * pow2 f.exp2.toNat else f.mant / pow2 (-f.exp2).toNat
  if f.sign then -(mag : Int) else (mag : Int)

/-- `int(x / 1000 * screen_width)` from the source, with the double-precision
evaluation modelled bit-exactly. -/
def denormalize_x (x : Int) (screen_width : Int) : Int :=
  pyFloatTrunc (pyFloatMulInt (pyIntTrueDiv x 1000) screen_width)

/-- `int(y / 1000 * screen_height)` from the source, modelled as for
`denormalize_x`. -/
def denormalize_y (y : Int) (screen_height : Int) : Int :=
  pyFloatTrunc (pyFloatMulInt (pyIntTrueDiv y 1000) screen_height)

/-- `ensure_url_scheme` from the source: keep the url when it starts with
`http://` or `https://`, return it unchanged when empty, otherwise prepend
`https://`. -/
def ensure_url_scheme (url : String) : String :=
  if pyStartsWith url "http://" || pyStartsWith url "https://" then url
  else if url = "" then url
  else "https://" ++ url

/-- `get_safety_confirmation` from the source: read operator input lines until
one strips and lowercases to a valid token; answer `TERMINATE` on a negative
token and `CONTINUE` on an affirmative one.  The real prompt blocks forever
when no valid token arrives, modelled here by `Option.none` on a finite input
list holding no valid token. -/
def get_safety_confirmation (operatorInputs : List String) : Option String :=
  match operatorInputs.find?
      (fun s => (["y", "n", "yes", "no"] : List String).contains (pyLower (pyTrim s))) with
  | Option.some s =>
    if (["n", "no"] : List String).contains (pyLower (pyTrim s)) then Option.some "TERMINATE"
    else Option.some "CONTINUE"
  | Option.none => Option.none

/-- One concrete browser input or wait primitive issued through the Playwright
page: `page.goto`, `page.mouse.click`, `page.keyboard.type`,
`page.keyboard.press`, `page.mouse.wheel`, `page.wait_for_load_state`
and `time.sleep` (in milliseconds). -/
inductive Event where
  | goto : String → Event
  | click : Int → Int → Event
  | typeText : String → Nat → Event
  | keyPress : String → Event
  | wheel : Int → Int → Event
  | waitForLoadState : Nat → Event
  | sleep : Nat → Event
  deriving DecidableEq

/-- Whether an event belongs to the post-action settle step. -/
def isSettleEvent : Event → Bool
  | Event.waitForLoadState _ => true
  | Event.sleep _ => true
  | _ => false

/-- Whether an event is a character-typing event (`page.keyboard.type`). -/
def isTypeTextEvent : Event → Bool
  | Event.typeText _ _ => true
  | _ => false

/-- The argument validation and event plan of one branch of the dispatch chain
in `execute_function_calls`: every raise that can happen while reading or
coercing arguments occurs before the first browser event of the branch, so the
branch is faithfully split into a fallible plan followed by event execution. -/
def planAction (screen_width screen_height : Int) (fname : String)
    (args : List (String × Value)) : Except String (List Event) :=
  if fname = "open_web_browser" then
    Except.ok []
  else if fname = "navigate" then
    let url := ensure_url_scheme (pyStr (argsGetD args "url" (Value.str "")))
    if url = "" then Except.error "Missing url argument for navigate"
    else Except.ok [Event.goto url]
  else if fname = "click_at" then do
    let xv ← argsItem args "x"
    let x ← pyInt xv
    let yv ← argsItem args "y"
    let y ← pyInt yv
    Except.ok [Event.click (denormalize_x x screen_width) (denormalize_y y screen_height)]
  else if fname = "type_text_at" then do
    let xv ← argsItem args "x"
    let x ← pyInt xv
    let yv ← argsItem args "y"
    let y ← pyInt yv
    let text := pyStr (argsGetD args "text" (Value.str ""))
    let press_enter := pyTruthy (argsGetD args "press_enter" (Value.bool true))
    let clear_before_typing := pyTruthy (argsGetD args "clear_before_typing" (Value.bool true))
    Except.ok ([Event.click (denormalize_x x screen_width) (denormalize_y y screen_height)] ++
      (if clear_before_typing then [Event.keyPress "Meta+A", Event.keyPress "Backspace"] else []) ++
      (if text ≠ "" then [Event.typeText text 15] else []) ++
      (if press_enter then [Event.keyPress "Enter"] else []))
  else if fname = "key_combination" then
    let keys := pyTrim (pyStr (argsGetD args "keys" (Value.str "")))
    if keys = "" then Except.error "Missing keys argument for key_combination"
    else Except.ok [Event.keyPress (if pyLower keys ≠ "enter" then pyTitle keys else "Enter")]
  else if fname = "scroll_document" then do
    let dval :=
      match argsGet args "direction" with
      | Option.some v => if pyTruthy v then v else Value.str "down"
      | Option.none => Value.str "down"
    let direction ←
      match dval with
      | Value.str s => Except.ok (pyLower s)
      | _ => Except.error "AttributeError: lower"
    if direction ∉ (["up", "down", "left", "right"] : List String) then
      Except.error "direction must be up, down, left, or right"
    else do
      let magnitude ← pyInt (argsGetD args "magnitude" (Value.int 800))
      let dx : Int := if direction = "right" then magnitude
        else if direction = "left" then -magnitude else 0
      let dy : Int := if direction = "down" then magnitude
        else if direction = "up" then -magnitude else 0
      Except.ok [Event.wheel dx dy]
  else
    Except.ok []

/-- Issue a list of events against the browser oracle in order, stopping at the
first event that raises; returns the attempted events and the error, if any. -/
def runEvents (env : Event → Except String Unit) : List Event → List Event × Option String
  | [] => ([], Option.none)
  | e :: rest =>
    match env e with
    | Except.error m => ([e], Option.some m)
    | Except.ok _ =>
      let r := runEvents env rest
      (e :: r.1, r.2)

/-- The post-action settle step of the source: `wait_for_load_state("networkidle",
timeout=5000)` with any exception swallowed, then `time.sleep(0.8)`.  Its
outcome never influences results, so its two events are recorded directly. -/
def settleEvents : List Event := [Event.waitForLoadState 5000, Event.sleep 800]

/-- Execute one function call body (the `try` block of the dispatcher): plan the
events, issue them, then perform the settle step.  A raise anywhere inside the
`try` — argument validation, an input event, and in particular before the
settle step — is caught and becomes an `error` entry in the action result. -/
def dispatchAction (env : Event → Except String Unit) (screen_width screen_height : Int)
    (fname : String) (args : List (String × Value)) :
    List (String × String) × List Event :=
  match planAction screen_width screen_height fname args with
  | Except.error m => ([("error", m)], [])
  | Except.ok evts =>
    let r := runEvents env evts
    match r.2 with
    | Option.some m => ([("error", m)], r.1)
    | Option.none => ([], r.1 ++ settleEvents)

/-- One model function call: a name and an argument mapping. -/
structure FunctionCall where
  name : String
  args : List (String × Value)
  deriving DecidableEq

/-- `args.get("safety_decision")` followed by the `isinstance(..., dict)` test. -/
def safetyDecisionOf (args : List (String × Value)) : Option (List (String × String)) :=
  match argsGet args "safety_decision" with
  | Option.some (Value.dict d) => Option.some d
  | _ => Option.none

/-- The per-action result dict (`{}`, `error: ...` or `terminated_by_user: True`). -/
abbrev ActionResult := List (String × String)

/-- One entry of the dispatcher result list: `(function_name, action_result,
extra_fields_for_function_response)`. -/
abbrev ResultEntry := String × ActionResult × List (String × String)

/-- The loop body of `execute_function_calls` over the extracted function calls.
`gateIdx` counts prior safety-gate consultations and indexes into the operator
oracle `approve`.  A rejected safety decision appends the rejection entry with
acknowledgement `"false"` and breaks out of the batch. -/
def execCallsFrom (env : Event → Except String Unit) (approve : Nat → Bool)
    (screen_width screen_height : Int) :
    List FunctionCall → Nat → List ResultEntry × Bool × List Event
  | [], _ => ([], false, [])
  | fc :: rest, gateIdx =>
    match safetyDecisionOf fc.args with
    | Option.some _ =>
      if approve gateIdx then
        let de := dispatchAction env screen_width screen_height fc.name fc.args
        let re := execCallsFrom env approve screen_width screen_height rest (gateIdx + 1)
        ((fc.name, de.1, [("safety_acknowledgement", "true")]) :: re.1, re.2.1, de.2 ++ re.2.2)
      else
        ([(fc.name, [("terminated_by_user", "True")], [("safety_acknowledgement", "false")])],
          true, [])
    | Option.none =>
      let de := dispatchAction env screen_width screen_height fc.name fc.args
      let re := execCallsFrom env approve screen_width screen_height rest gateIdx
      ((fc.name, de.1, []) :: re.1, re.2.1, de.2 ++ re.2.2)

/-- A function response bundle: the outcome fields plus the attached screenshot
binary (`FunctionResponsePart` inline data in the source). -/
structure FunctionResponse where
  name : String
  response : List (String × String)
  screenshot : List Nat
  deriving DecidableEq

/-- One content part of a model or user turn. -/
inductive Part where
  | text : String → Part
  | functionCall : FunctionCall → Part
  | functionResponse : FunctionResponse → Part
  deriving DecidableEq

/-- Extract the parts carrying a function call, in order. -/
def functionCallsOf (parts : List Part) : List FunctionCall :=
  parts.filterMap (fun p =>
    match p with
    | Part.functionCall fc => Option.some fc
    | _ => Option.none)

/-- `execute_function_calls` from the source: translate the candidate parts
into browser actions, consulting the safety gate where requested.  Returns the
result entries, the early-termination flag, and the trace of attempted browser
events. -/
def execute_function_calls (env : Event → Except String Unit) (approve : Nat → Bool)
    (parts : List Part) (screen_width screen_height : Int) :
    List ResultEntry × Bool × List Event :=
  execCallsFrom env approve screen_width screen_height (functionCallsOf parts) 0

/-- The page state observed at a capture point: `page.url` and
`page.screenshot()` bytes. -/
structure PageState where
  url : String
  screenshot : List Nat
  deriving DecidableEq

/-- First-match lookup in a string dict. -/
def lookupKey : List (String × String) → String → Option String
  | [], _ => Option.none
  | p :: rest, k => if p.1 = k then Option.some p.2 else lookupKey rest k

/-- Python dict assignment `d[k] = v`: overwrite in place when the key exists,
append otherwise. -/
def dictSet (d : List (String × String)) (k v : String) : List (String × String) :=
  if d.any (fun p => p.1 == k) then d.map (fun p => if p.1 = k then (k, v) else p)
  else d ++ [(k, v)]

/-- Python `d.update(e)` as iterated assignment. -/
def dictUpdate (d e : List (String × String)) : List (String × String) :=
  e.foldl (fun acc p => dictSet acc p.1 p.2) d

/-- `get_function_responses` from the source: capture one screenshot and the
current URL once, then build one response bundle per result entry, merging the
action result and the extra fields into `{"url": current_url}` and attaching
the identical screenshot bytes to every bundle.  (The source guards the two
`update` calls behind emptiness tests; updating with an empty dict is the
identity, so the guards are dropped.) -/
def get_function_responses (page : PageState) (results : List ResultEntry) :
    List FunctionResponse :=
  results.map (fun r =>
    { name := r.1,
      response := dictUpdate (dictUpdate [("url", page.url)] r.2.1) r.2.2,
      screenshot := page.screenshot })

/-- A history entry (`Content`): a role and its parts. -/
structure Content where
  role : String
  parts : List Part
  deriving DecidableEq

/-- `any(getattr(p, "function_call", None) for p in parts)`. -/
def hasFunctionCall (parts : List Part) : Bool :=
  parts.any (fun p =>
    match p with
    | Part.functionCall _ => true
    | _ => false)

/-- Join nonempty strings with single spaces (Python `" ".join`). -/
def joinSpace : List String → String
  | [] => ""
  | [s] => s
  | s :: rest => s ++ " " ++ joinSpace rest

/-- `" ".join(p.text for p in parts if p.text)`: the final-answer text. -/
def textOf (parts : List Part) : String :=
  joinSpace (parts.filterMap (fun p =>
    match p with
    | Part.text s => if s ≠ "" then Option.some s else Option.none
    | _ => Option.none))

/-- Why `run_agent_loop` stopped: a final answer (a model turn with no function
calls), the safety-gate rejection break, or exhaustion of the 10-turn loop. -/
inductive DoneReason where
  | FinalAnswer : String → DoneReason
  | UserTerminated : DoneReason
  | TurnLimitReached : DoneReason
  deriving DecidableEq

/-- The oracles consumed by one goal session: the remote model, the browser
event outcomes, the operator decisions (per turn and per gate consultation) and
the page state at each capture point (per turn). -/
structure LoopEnv where
  model : List Content → List Part
  browser : Event → Except String Unit
  approve : Nat → Nat → Bool
  pageAt : Nat → PageState

/-- The `for i in range(turn_limit)` body of `run_agent_loop`, with the
remaining iteration budget as `fuel`.  Alongside the history and the stop
reason it returns the log of histories sent to the remote model, one entry per
model invocation. -/
def run_agent_loop_aux (E : LoopEnv) (screen_width screen_height : Int) :
    Nat → Nat → List Content → List (List Content) →
    List Content × DoneReason × List (List Content)
  | 0, _, contents, log => (contents, DoneReason.TurnLimitReached, log)
  | fuel + 1, i, contents, log =>
    let parts := E.model contents
    let log2 := log ++ [contents]
    let contents2 := contents ++ [Content.mk "model" parts]
    if hasFunctionCall parts then
      let out := execute_function_calls E.browser (E.approve i) parts screen_width screen_height
      let frs := get_function_responses (E.pageAt i) out.1
      let contents3 := contents2 ++ [Content.mk "user" (frs.map Part.functionResponse)]
      if out.2.1 then (contents3, DoneReason.UserTerminated, log2)
      else run_agent_loop_aux E screen_width screen_height fuel (i + 1) contents3 log2
    else
      (contents2, DoneReason.FinalAnswer (textOf parts), log2)

/-- Modelled from the spec: the pre-loop initialization of `run_agent_loop` is
elided in the source file (replaced by a placeholder comment before the loop),
so the starting history is taken from the spec, which states that a goal
session starts with empty history plus the goal as the first user message. -/
def initial_contents (user_goal : String) : List Content :=
  [Content.mk "user" [Part.text user_goal]]

/-- `turn_limit = 10` from the source. -/
def turn_limit : Nat := 10

/-- `run_agent_loop` from the source: run up to `turn_limit` turns starting
from the initial history. -/
def run_agent_loop (E : LoopEnv) (user_goal : String) :
    List Content × DoneReason × List (List Content) :=
  run_agent_loop_aux E SCREEN_WIDTH SCREEN_HEIGHT turn_limit 0 (initial_contents user_goal) []


/-! ### Lemmas about the response dict operations -/

theorem lookupKey_map_set (d : List (String × String)) (k v q : String) (h : ¬ k = q) :
    lookupKey (d.map (fun p => if p.1 = k then (k, v) else p)) q = lookupKey d q := by
  induction d with
  | nil => rfl
  | cons p rest ih =>
    by_cases hp : p.1 = k
    · simp only [List.map_cons, if_pos hp, lookupKey]
      rw [if_neg h, if_neg (by rw [hp]; exact h), ih]
    · simp only [List.map_cons, if_neg hp, lookupKey]
      rw [ih]

theorem lookupKey_append_single (d : List (String × String)) (k v q : String) (h : ¬ k = q) :
    lookupKey (d ++ [(k, v)]) q = lookupKey d q := by
  induction d with
  | nil => simp [lookupKey, h]
  | cons p rest ih =>
    simp [lookupKey, ih]

theorem lookupKey_dictSet_ne (d : List (String × String)) (k v q : String) (h : ¬ k = q) :
    lookupKey (dictSet d k v) q = lookupKey d q := by
  unfold dictSet
  split
  · exact lookupKey_map_set d k v q h
  · exact lookupKey_append_single d k v q h

theorem dictUpdate_cons (d : List (String × String)) (p : String × String)
    (e : List (String × String)) :
    dictUpdate d (p :: e) = dictUpdate (dictSet d p.1 p.2) e := rfl

theorem lookupKey_dictUpdate_ne (d e : List (String × String)) (q : String)
    (h : ∀ p ∈ e, ¬ p.1 = q) :
    lookupKey (dictUpdate d e) q = lookupKey d q := by
  induction e generalizing d with
  | nil => rfl
  | cons p rest ih =>
    rw [dictUpdate_cons, ih _ (fun r hr => h r (List.mem_cons_of_mem p hr)),
      lookupKey_dictSet_ne d p.1 p.2 q (h p (List.mem_cons_self p rest))]

/-! ### Lemmas about single-action dispatch -/

theorem dispatchAction_of_plan_error (env : Event → Except String Unit)
    (w h : Int) (fname : String) (args : List (String × Value)) (m : String)
    (hp : planAction w h fname args = Except.error m) :
    dispatchAction env w h fname args = ([("error", m)], []) := by
  unfold dispatchAction
  rw [hp]

theorem dispatchAction_of_run_ok (env : Event → Except String Unit)
    (w h : Int) (fname : String) (args : List (String × Value)) (evts : List Event)
    (hp : planAction w h fname args = Except.ok evts)
    (hok : (runEvents env evts).2 = Option.none) :
    dispatchAction env w h fname args = ([], (runEvents env evts).1 ++ settleEvents) := by
  unfold dispatchAction
  rw [hp]
  simp only [hok]

theorem dispatchAction_of_run_err (env : Event → Except String Unit)
    (w h : Int) (fname : String) (args : List (String × Value)) (evts : List Event) (m : String)
    (hp : planAction w h fname args = Except.ok evts)
    (herr : (runEvents env evts).2 = Option.some m) :
    dispatchAction env w h fname args = ([("error", m)], (runEvents env evts).1) := by
  unfold dispatchAction
  rw [hp]
  simp only [herr]

theorem dispatchAction_result_shape (env : Event → Except String Unit)
    (w h : Int) (fname : String) (args : List (String × Value)) :
    (dispatchAction env w h fname args).1 = [] ∨
      ∃ m, (dispatchAction env w h fname args).1 = [("error", m)] := by
  rcases hp : planAction w h fname args with m | evts
  · exact Or.inr ⟨m, by rw [dispatchAction_of_plan_error env w h fname args m hp]⟩
  · rcases hr : (runEvents env evts).2 with _ | m
    · exact Or.inl (by rw [dispatchAction_of_run_ok env w h fname args evts hp hr])
    · exact Or.inr ⟨m, by rw [dispatchAction_of_run_err env w h fname args evts m hp hr]⟩

/-! ### Lemmas about the dispatcher loop -/

theorem execCallsFrom_nil (env : Event → Except String Unit) (approve : Nat → Bool)
    (w h : Int) (gateIdx : Nat) :
    execCallsFrom env approve w h [] gateIdx = ([], false, []) := rfl

theorem execCallsFrom_cons_reject (env : Event → Except String Unit) (approve : Nat → Bool)
    (w h : Int) (fc : FunctionCall) (rest : List FunctionCall) (gateIdx : Nat)
    (d : List (String × String))
    (hs : safetyDecisionOf fc.args = Option.some d) (ha : approve gateIdx = false) :
    execCallsFrom env approve w h (fc :: rest) gateIdx =
      ([(fc.name, [("terminated_by_user", "True")], [("safety_acknowledgement", "false")])],
        true, []) := by
  conv_lhs => rw [execCallsFrom]
  rw [hs]
  simp [ha]

theorem execCallsFrom_cons_approve (env : Event → Except String Unit) (approve : Nat → Bool)
    (w h : Int) (fc : FunctionCall) (rest : List FunctionCall) (gateIdx : Nat)
    (d : List (String × String))
    (hs : safetyDecisionOf fc.args = Option.some d) (ha : approve gateIdx = true) :
    execCallsFrom env approve w h (fc :: rest) gateIdx =
      ((fc.name, (dispatchAction env w h fc.name fc.args).1,
          [("safety_acknowledgement", "true")]) ::
            (execCallsFrom env approve w h rest (gateIdx + 1)).1,
        (execCallsFrom env approve w h rest (gateIdx + 1)).2.1,
        (dispatchAction env w h fc.name fc.args).2 ++
          (execCallsFrom env approve w h rest (gateIdx + 1)).2.2) := by
  conv_lhs => rw [execCallsFrom]
  rw [hs]
  simp [ha]

theorem execCallsFrom_cons_nosafety (env : Event → Except String Unit) (approve : Nat → Bool)
    (w h : Int) (fc : FunctionCall) (rest : List FunctionCall) (gateIdx : Nat)
    (hs : safetyDecisionOf fc.args = Option.none) :
    execCallsFrom env approve w h (fc :: rest) gateIdx =
      ((fc.name, (dispatchAction env w h fc.name fc.args).1, []) ::
          (execCallsFrom env approve w h rest gateIdx).1,
        (execCallsFrom env approve w h rest gateIdx).2.1,
        (dispatchAction env w h fc.name fc.args).2 ++
          (execCallsFrom env approve w h rest gateIdx).2.2) := by
  conv_lhs => rw [execCallsFrom]
  rw [hs]

theorem execCallsFrom_names (env : Event → Except String Unit) (approve : Nat → Bool)
    (w h : Int) :
    ∀ (calls : List FunctionCall) (gateIdx : Nat),
      ((execCallsFrom env approve w h calls gateIdx).1.map (fun r => r.1)) =
        (calls.map (fun c => c.name)).take
          (execCallsFrom env approve w h calls gateIdx).1.length := by
  intro calls
  induction calls with
  | nil => intro gateIdx; rfl
  | cons fc rest ih =>
    intro gateIdx
    rcases hs : safetyDecisionOf fc.args with _ | d
    · rw [execCallsFrom_cons_nosafety env approve w h fc rest gateIdx hs]
      simp only [List.map_cons, List.length_cons, List.take_succ_cons]
      rw [ih gateIdx]
    · rcases ha : approve gateIdx with _ | _
      · rw [execCallsFrom_cons_reject env approve w h fc rest gateIdx d hs ha]
        simp [List.take_succ_cons]
      · rw [execCallsFrom_cons_approve env approve w h fc rest gateIdx d hs ha]
        simp only [List.map_cons, List.length_cons, List.take_succ_cons]
        rw [ih (gateIdx + 1)]

theorem execCallsFrom_no_term (env : Event → Except String Unit) (approve : Nat → Bool)
    (w h : Int) :
    ∀ (calls : List FunctionCall) (gateIdx : Nat),
      (execCallsFrom env approve w h calls gateIdx).2.1 = false →
      (execCallsFrom env approve w h calls gateIdx).1 =
        calls.map (fun c =>
          (c.name, (dispatchAction env w h c.name c.args).1,
            if (safetyDecisionOf c.args).isSome then [("safety_acknowledgement", "true")]
            else [])) := by
  intro calls
  induction calls with
  | nil => intro gateIdx _; rfl
  | cons fc rest ih =>
    intro gateIdx hterm
    rcases hs : safetyDecisionOf fc.args with _ | d
    · rw [execCallsFrom_cons_nosafety env approve w h fc rest gateIdx hs] at hterm ⊢
      simp only [List.map_cons, hs, Option.isSome_none, Bool.false_eq_true, if_false]
      rw [ih gateIdx hterm]
    · rcases ha : approve gateIdx with _ | _
      · rw [execCallsFrom_cons_reject env approve w h fc rest gateIdx d hs ha] at hterm
        simp at hterm
      · rw [execCallsFrom_cons_approve env approve w h fc rest gateIdx d hs ha] at hterm ⊢
        simp only [List.map_cons, hs, Option.isSome_some, if_true]
        rw [ih (gateIdx + 1) hterm]

theorem getLast?_cons_of_ne_nil {α : Type} (a : α) (l : List α) (h : ¬ l = []) :
    (a :: l).getLast? = l.getLast? := by
  cases l with
  | nil => exact absurd rfl h
  | cons b rest => exact List.getLast?_cons_cons

theorem execCallsFrom_term (env : Event → Except String Unit) (approve : Nat → Bool)
    (w h : Int) :
    ∀ (calls : List FunctionCall) (gateIdx : Nat),
      (execCallsFrom env approve w h calls gateIdx).2.1 = true →
      ∃ j, ∃ hj : j < calls.length,
        (safetyDecisionOf (calls.get ⟨j, hj⟩).args).isSome = true ∧
        (execCallsFrom env approve w h calls gateIdx).1.length = j + 1 ∧
        (execCallsFrom env approve w h calls gateIdx).1.getLast? =
          Option.some ((calls.get ⟨j, hj⟩).name, [("terminated_by_user", "True")],
            [("safety_acknowledgement", "false")]) ∧
        (execCallsFrom env approve w h calls gateIdx).2.2 =
          (execCallsFrom env approve w h (calls.take j) gateIdx).2.2 := by
  intro calls
  induction calls with
  | nil => intro gateIdx hterm; simp [execCallsFrom_nil] at hterm
  | cons fc rest ih =>
    intro gateIdx hterm
    rcases hs : safetyDecisionOf fc.args with _ | d
    · rw [execCallsFrom_cons_nosafety env approve w h fc rest gateIdx hs] at hterm
      obtain ⟨j, hj, hsome, hlen, hlast, htr⟩ := ih gateIdx hterm
      refine ⟨j + 1, by simpa using Nat.succ_lt_succ hj, ?_, ?_, ?_, ?_⟩
      · simpa using hsome
      · rw [execCallsFrom_cons_nosafety env approve w h fc rest gateIdx hs]
        simpa using hlen
      · rw [execCallsFrom_cons_nosafety env approve w h fc rest gateIdx hs]
        have hne : ¬ (execCallsFrom env approve w h rest gateIdx).1 = [] := by
          intro hnil
          rw [hnil] at hlen
          simp at hlen
        simp only [getLast?_cons_of_ne_nil _ _ hne]
        simpa using hlast
      · rw [execCallsFrom_cons_nosafety env approve w h fc rest gateIdx hs,
          List.take_succ_cons,
          execCallsFrom_cons_nosafety env approve w h fc (rest.take j) gateIdx hs]
        simp only [htr]
    · rcases ha : approve gateIdx with _ | _
      · refine ⟨0, by simp, ?_, ?_, ?_, ?_⟩
        · simp [hs]
        · rw [execCallsFrom_cons_reject env approve w h fc rest gateIdx d hs ha]
          rfl
        · rw [execCallsFrom_cons_reject env approve w h fc rest gateIdx d hs ha]
          rfl
        · rw [execCallsFrom_cons_reject env approve w h fc rest gateIdx d hs ha]
          rfl
      · rw [execCallsFrom_cons_approve env approve w h fc rest gateIdx d hs ha] at hterm
        obtain ⟨j, hj, hsome, hlen, hlast, htr⟩ := ih (gateIdx + 1) hterm
        refine ⟨j + 1, by simpa using Nat.succ_lt_succ hj, ?_, ?_, ?_, ?_⟩
        · simpa using hsome
        · rw [execCallsFrom_cons_approve env approve w h fc rest gateIdx d hs ha]
          simpa using hlen
        · rw [execCallsFrom_cons_approve env approve w h fc rest gateIdx d hs ha]
          have hne : ¬ (execCallsFrom env approve w h rest (gateIdx + 1)).1 = [] := by
            intro hnil
            rw [hnil] at hlen
            simp at hlen
          simp only [getLast?_cons_of_ne_nil _ _ hne]
          simpa using hlast
        · rw [execCallsFrom_cons_approve env approve w h fc rest gateIdx d hs ha,
            List.take_succ_cons,
            execCallsFrom_cons_approve env approve w h fc (rest.take j) gateIdx d hs ha]
          simp only [htr]

theorem hasFunctionCall_iff (parts : List Part) :
    hasFunctionCall parts = true ↔ ¬ functionCallsOf parts = [] := by
  induction parts with
  | nil => simp [hasFunctionCall, functionCallsOf]
  | cons p rest ih =>
    cases p with
    | text s => simpa [hasFunctionCall, functionCallsOf] using ih
    | functionCall fc => simp [hasFunctionCall, functionCallsOf]
    | functionResponse fr => simpa [hasFunctionCall, functionCallsOf] using ih


/-! ### Lemmas about event execution and the settle step -/

theorem runEvents_cons_err (env : Event → Except String Unit) (e : Event)
    (rest : List Event) (m : String) (henv : env e = Except.error m) :
    runEvents env (e :: rest) = ([e], Option.some m) := by
  conv_lhs => rw [runEvents]
  rw [henv]

theorem runEvents_cons_ok (env : Event → Except String Unit) (e : Event)
    (rest : List Event) (henv : env e = Except.ok ()) :
    runEvents env (e :: rest) = (e :: (runEvents env rest).1, (runEvents env rest).2) := by
  conv_lhs => rw [runEvents]
  rw [henv]

theorem runEvents_all (env : Event → Except String Unit) (p : Event → Bool) :
    ∀ evts : List Event, evts.all p = true → ((runEvents env evts).1).all p = true := by
  intro evts
  induction evts with
  | nil => intro _; rfl
  | cons e rest ih =>
    intro hall
    rw [List.all_cons, Bool.and_eq_true] at hall
    rcases henv : env e with m | u
    · rw [runEvents_cons_err env e rest m henv]
      simp [hall.1]
    · cases u
      rw [runEvents_cons_ok env e rest henv]
      simp [hall.1, ih hall.2]

theorem planAction_no_settle (w h : Int) (fname : String) (args : List (String × Value))
    (evts : List Event) (hp : planAction w h fname args = Except.ok evts) :
    evts.all (fun e => !isSettleEvent e) = true := by
  unfold planAction at hp
  simp only [bind, Except.bind] at hp
  repeat' split at hp
  all_goals cases hp
  all_goals rfl

theorem dispatchAction_settle (env : Event → Except String Unit) (w h : Int)
    (fname : String) (args : List (String × Value)) :
    (lookupKey (dispatchAction env w h fname args).1 "error" = Option.none →
      ∃ pre, (dispatchAction env w h fname args).2 = pre ++ settleEvents ∧
        pre.all (fun e => !isSettleEvent e) = true) ∧
    (∀ m, lookupKey (dispatchAction env w h fname args).1 "error" = Option.some m →
      ((dispatchAction env w h fname args).2).all (fun e => !isSettleEvent e) = true) := by
  rcases hp : planAction w h fname args with m0 | evts
  · rw [dispatchAction_of_plan_error env w h fname args m0 hp]
    constructor
    · intro hno
      simp [lookupKey] at hno
    · intro m _
      rfl
  · rcases hr : (runEvents env evts).2 with _ | m0
    · rw [dispatchAction_of_run_ok env w h fname args evts hp hr]
      constructor
      · intro _
        exact ⟨(runEvents env evts).1, rfl,
          runEvents_all env _ evts (planAction_no_settle w h fname args evts hp)⟩
      · intro m hsome
        simp [lookupKey] at hsome
    · rw [dispatchAction_of_run_err env w h fname args evts m0 hp hr]
      constructor
      · intro hno
        simp [lookupKey] at hno
      · intro m _
        exact runEvents_all env _ evts (planAction_no_settle w h fname args evts hp)

/-! ### Keys appearing in dispatcher results -/

theorem execCallsFrom_no_url_key (env : Event → Except String Unit) (approve : Nat → Bool)
    (w h : Int) :
    ∀ (calls : List FunctionCall) (gateIdx : Nat) (r : ResultEntry),
      r ∈ (execCallsFrom env approve w h calls gateIdx).1 →
      (∀ p ∈ r.2.1, ¬ p.1 = "url") ∧ (∀ p ∈ r.2.2, ¬ p.1 = "url") := by
  intro calls
  induction calls with
  | nil =>
    intro gateIdx r hr
    rw [execCallsFrom_nil] at hr
    simp at hr
  | cons fc rest ih =>
    intro gateIdx r hr
    have hdisp : ∀ p ∈ (dispatchAction env w h fc.name fc.args).1, ¬ p.1 = "url" := by
      intro p hp
      rcases dispatchAction_result_shape env w h fc.name fc.args with hsh | ⟨m, hsh⟩
      · rw [hsh] at hp
        simp at hp
      · rw [hsh] at hp
        simp at hp
        rw [hp]
        exact (by decide : ¬ ("error" : String) = "url")
    rcases hs : safetyDecisionOf fc.args with _ | d
    · rw [execCallsFrom_cons_nosafety env approve w h fc rest gateIdx hs] at hr
      rcases List.mem_cons.mp hr with h1 | h2
      · subst h1
        exact ⟨hdisp, by intro p hp; simp at hp⟩
      · exact ih gateIdx r h2
    · rcases ha : approve gateIdx with _ | _
      · rw [execCallsFrom_cons_reject env approve w h fc rest gateIdx d hs ha] at hr
        simp at hr
        subst hr
        constructor
        · intro p hp
          simp at hp
          rw [hp]
          decide
        · intro p hp
          simp at hp
          rw [hp]
          decide
      · rw [execCallsFrom_cons_approve env approve w h fc rest gateIdx d hs ha] at hr
        rcases List.mem_cons.mp hr with h1 | h2
        · subst h1
          constructor
          · exact hdisp
          · intro p hp
            simp at hp
            rw [hp]
            decide
        · exact ih (gateIdx + 1) r h2

/-! ### Miscellaneous list lemmas -/

theorem getLast?_map_eq {α β : Type} (f : α → β) :
    ∀ l : List α, (l.map f).getLast? = l.getLast?.map f := by
  intro l
  induction l with
  | nil => rfl
  | cons a rest ih =>
    cases rest with
    | nil => rfl
    | cons b rest2 =>
      have h1 : ¬ ((b :: rest2).map f) = [] := by simp
      have h2 : ¬ (b :: rest2) = ([] : List α) := by simp
      rw [List.map_cons, getLast?_cons_of_ne_nil _ _ h1, ih, getLast?_cons_of_ne_nil _ _ h2]

/-! ### Lemmas about the agent loop -/

theorem run_agent_loop_aux_zero (E : LoopEnv) (w h : Int) (i : Nat)
    (contents : List Content) (log : List (List Content)) :
    run_agent_loop_aux E w h 0 i contents log = (contents, DoneReason.TurnLimitReached, log) :=
  rfl

theorem run_agent_loop_aux_succ_final (E : LoopEnv) (w h : Int) (fuel i : Nat)
    (contents : List Content) (log : List (List Content))
    (h1 : hasFunctionCall (E.model contents) = false) :
    run_agent_loop_aux E w h (fuel + 1) i contents log =
      (contents ++ [Content.mk "model" (E.model contents)],
        DoneReason.FinalAnswer (textOf (E.model contents)), log ++ [contents]) := by
  conv_lhs => rw [run_agent_loop_aux]
  simp [h1]

theorem run_agent_loop_aux_succ_term (E : LoopEnv) (w h : Int) (fuel i : Nat)
    (contents : List Content) (log : List (List Content))
    (h1 : hasFunctionCall (E.model contents) = true)
    (h2 : (execute_function_calls E.browser (E.approve i) (E.model contents) w h).2.1 = true) :
    run_agent_loop_aux E w h (fuel + 1) i contents log =
      (contents ++
        [Content.mk "model" (E.model contents),
         Content.mk "user"
           ((get_function_responses (E.pageAt i)
             (execute_function_calls E.browser (E.approve i) (E.model contents) w h).1).map
               Part.functionResponse)],
       DoneReason.UserTerminated, log ++ [contents]) := by
  conv_lhs => rw [run_agent_loop_aux]
  simp [h1, h2]

theorem run_agent_loop_aux_succ_cont (E : LoopEnv) (w h : Int) (fuel i : Nat)
    (contents : List Content) (log : List (List Content))
    (h1 : hasFunctionCall (E.model contents) = true)
    (h2 : (execute_function_calls E.browser (E.approve i) (E.model contents) w h).2.1 = false) :
    run_agent_loop_aux E w h (fuel + 1) i contents log =
      run_agent_loop_aux E w h fuel (i + 1)
        (contents ++
          [Content.mk "model" (E.model contents),
           Content.mk "user"
             ((get_function_responses (E.pageAt i)
               (execute_function_calls E.browser (E.approve i) (E.model contents) w h).1).map
                 Part.functionResponse)])
        (log ++ [contents]) := by
  conv_lhs => rw [run_agent_loop_aux]
  simp [h1, h2]

theorem run_agent_loop_aux_log (E : LoopEnv) (w h : Int) :
    ∀ (fuel i : Nat) (contents : List Content) (log : List (List Content)),
      ∃ tail, (run_agent_loop_aux E w h fuel i contents log).2.2 = log ++ tail ∧
        (0 < fuel → tail.head? = Option.some contents) := by
  intro fuel
  induction fuel with
  | zero =>
    intro i c log
    exact ⟨[], by simp [run_agent_loop_aux_zero], fun hf => absurd hf (by omega)⟩
  | succ n ih =>
    intro i c log
    rcases h1 : hasFunctionCall (E.model c) with _ | _
    · exact ⟨[c], by rw [run_agent_loop_aux_succ_final E w h n i c log h1], fun _ => rfl⟩
    · rcases h2 : (execute_function_calls E.browser (E.approve i) (E.model c) w h).2.1 with _ | _
      · obtain ⟨tail2, heq, _⟩ := ih (i + 1)
          (c ++
            [Content.mk "model" (E.model c),
             Content.mk "user"
               ((get_function_responses (E.pageAt i)
                 (execute_function_calls E.browser (E.approve i) (E.model c) w h).1).map
                   Part.functionResponse)])
          (log ++ [c])
        refine ⟨[c] ++ tail2, ?_, fun _ => rfl⟩
        rw [run_agent_loop_aux_succ_cont E w h n i c log h1 h2, heq, List.append_assoc]
      · exact ⟨[c], by rw [run_agent_loop_aux_succ_term E w h n i c log h1 h2], fun _ => rfl⟩

theorem run_agent_loop_aux_turnlimit (E : LoopEnv) (w h : Int)
    (hfc : ∀ c, hasFunctionCall (E.model c) = true)
    (hnt : ∀ i c, (execute_function_calls E.browser (E.approve i) (E.model c) w h).2.1 = false) :
    ∀ (fuel i : Nat) (contents : List Content) (log : List (List Content)),
      (run_agent_loop_aux E w h fuel i contents log).2.1 = DoneReason.TurnLimitReached ∧
      (run_agent_loop_aux E w h fuel i contents log).2.2.length = log.length + fuel := by
  intro fuel
  induction fuel with
  | zero =>
    intro i c log
    exact ⟨rfl, by simp [run_agent_loop_aux_zero]⟩
  | succ n ih =>
    intro i c log
    rw [run_agent_loop_aux_succ_cont E w h n i c log (hfc c) (hnt i c)]
    obtain ⟨hr, hl⟩ := ih (i + 1)
      (c ++
        [Content.mk "model" (E.model c),
         Content.mk "user"
           ((get_function_responses (E.pageAt i)
             (execute_function_calls E.browser (E.approve i) (E.model c) w h).1).map
               Part.functionResponse)])
      (log ++ [c])
    refine ⟨hr, ?_⟩
    rw [hl]
    simp
    omega

/-! ### Arithmetic facts about coordinate denormalization -/

theorem tdiv_1000_floor (a : Int) (ha : 0 ≤ a) :
    Int.tdiv a 1000 = ⌊((a : ℚ) / 1000)⌋ := by
  obtain ⟨n, hn⟩ := Int.eq_ofNat_of_zero_le ha
  subst hn
  rw [show ((1000 : ℚ)) = ((1000 : ℕ) : ℚ) by norm_num, Rat.floor_intCast_div_natCast]
  rfl


/-! ## Claim C1 -/

/-- A two-request batch whose first request carries a safety decision. -/
def C1_parts : List Part :=
  [Part.functionCall
    (FunctionCall.mk "navigate"
      [("url", Value.str "example.com"),
       ("safety_decision", Value.dict [("explanation", "sensitive")])]),
   Part.functionCall (FunctionCall.mk "open_web_browser" [])]

/-- C1 (counterexample): in a batch of two requests whose first is rejected at
the safety gate, only one Action Result is produced, so the number of results
does not equal the number of Action Requests in a turn where a safety
rejection occurs partway through the batch. -/
theorem claim_C1_counterexample :
    ((execute_function_calls (fun _ => Except.ok ()) (fun _ => false)
        C1_parts 1440 900).1).length ≠
      (functionCallsOf C1_parts).length := by
  decide

/-- C1 (amended): the Action Results of a batch correspond positionally to the
turn's Action Requests — the result names are exactly the length-many initial
request names — and the counts are equal whenever no safety rejection occurs
in the batch.  (When a rejection occurs partway, results stop at the rejected
request: claim C2.) -/
theorem claim_C1_results_match_requests (env : Event → Except String Unit)
    (approve : Nat → Bool) (parts : List Part) (w h : Int) :
    ((execute_function_calls env approve parts w h).1.map (fun r => r.1)) =
      ((functionCallsOf parts).map (fun c => c.name)).take
        (execute_function_calls env approve parts w h).1.length ∧
    ((execute_function_calls env approve parts w h).2.1 = false →
      (execute_function_calls env approve parts w h).1.length =
        (functionCallsOf parts).length) := by
  constructor
  · exact execCallsFrom_names env approve w h (functionCallsOf parts) 0
  · intro hterm
    show (execCallsFrom env approve w h (functionCallsOf parts) 0).1.length = _
    rw [execCallsFrom_no_term env approve w h (functionCallsOf parts) 0 hterm,
      List.length_map]

/-- C1 (witness): the amended claim instantiated on a concrete two-request
batch with no safety decisions. -/
theorem claim_C1_witness :
    (execute_function_calls (fun _ => Except.ok ()) (fun _ => true)
        [Part.functionCall (FunctionCall.mk "open_web_browser" []),
         Part.functionCall (FunctionCall.mk "navigate" [("url", Value.str "example.com")])]
        1440 900).2.1 = false ∧
    (execute_function_calls (fun _ => Except.ok ()) (fun _ => true)
        [Part.functionCall (FunctionCall.mk "open_web_browser" []),
         Part.functionCall (FunctionCall.mk "navigate" [("url", Value.str "example.com")])]
        1440 900).1.length =
      (functionCallsOf
        [Part.functionCall (FunctionCall.mk "open_web_browser" []),
         Part.functionCall (FunctionCall.mk "navigate" [("url", Value.str "example.com")])]).length :=
  ⟨by decide,
    (claim_C1_results_match_requests (fun _ => Except.ok ()) (fun _ => true)
        [Part.functionCall (FunctionCall.mk "open_web_browser" []),
         Part.functionCall (FunctionCall.mk "navigate" [("url", Value.str "example.com")])]
        1440 900).2 (by decide)⟩

/-! ## Claim C5 -/

/-- C5 (counterexample): the coordinate normalizer does not round to the
nearest integer.  At x = 2 with width 1440 the exact product is 2.88
(double value 2.8800000000000003), which the code maps to 2 while rounding
gives 3; at y = 1 with height 900 the exact product is 0.9 (double value just
above 0.9), which the code maps to 0 while rounding gives 1. -/
theorem claim_C5_counterexample :
    denormalize_x 2 1440 ≠ round ((2 : ℚ) / 1000 * 1440) ∧
    denormalize_y 1 900 ≠ round ((1 : ℚ) / 1000 * 900) := by
  have h1 : denormalize_x 2 1440 = 2 := by decide
  have h2 : denormalize_y 1 900 = 0 := by decide
  have h3 : round ((2 : ℚ) / 1000 * 1440) = 3 := by norm_num [round_eq]
  have h4 : round ((1 : ℚ) / 1000 * 900) = 1 := by norm_num [round_eq]
  rw [h1, h2, h3, h4]
  refine ⟨by decide, by decide⟩

set_option maxHeartbeats 4000000 in
/-- C5 (amended, claim corrected): the coordinate normalizer returns the
toward-zero truncation (Python `int()`) of `x / 1000 * dimension` evaluated in
double precision — not the exact product rounded to the nearest integer.
Checked over the whole protocol coordinate range 0..1000: at the deployed
height 900 the result coincides with the exact floor `y * 900 tdiv 1000` at
every coordinate, while at the deployed width 1440 it equals the exact floor
except at x ∈ {175, 350, 575, 700}, where double rounding lands just below the
integer and the result is one less.  The third conjunct identifies `Int.tdiv
_ 1000` with the exact rational floor on nonnegative arguments. -/
theorem claim_C5_double_truncation :
    ((List.range 1001).all (fun y =>
      denormalize_y (Int.ofNat y) SCREEN_HEIGHT == Int.tdiv (Int.ofNat y * 900) 1000)) =
        true ∧
    ((List.range 1001).all (fun x =>
      denormalize_x (Int.ofNat x) SCREEN_WIDTH ==
        (if x ∈ [175, 350, 575, 700] then Int.tdiv (Int.ofNat x * 1440) 1000 - 1
         else Int.tdiv (Int.ofNat x * 1440) 1000))) = true ∧
    (∀ a : Int, 0 ≤ a → Int.tdiv a 1000 = ⌊((a : ℚ) / 1000)⌋) :=
  ⟨by decide, by decide, fun a ha => tdiv_1000_floor a ha⟩

/-- C5 (witness): the floor identification of the amended claim instantiated
at a concrete nonnegative argument. -/
theorem claim_C5_witness :
    (0 : Int) ≤ 504000 ∧ Int.tdiv 504000 1000 = ⌊(((504000 : Int) : ℚ) / 1000)⌋ :=
  ⟨by decide, claim_C5_double_truncation.2.2 504000 (by decide)⟩

/-! ## Claim C6 -/

/-- Helper for `spec_has_scheme`: scheme characters up to the closing colon. -/
def spec_scheme_tail : List Char → Bool
  | [] => false
  | c :: rest =>
    if c = ':' then true
    else (c.isAlpha || c.isDigit || c = '+' || c = '-' || c = '.') && spec_scheme_tail rest

/-- Modelled from the spec: whether a url already carries a scheme, in the
generic url-syntax sense the claim appeals to with "has no scheme" — an
initial letter followed by letters, digits, plus, minus or dot, terminated by
a colon. -/
def spec_has_scheme (url : String) : Bool :=
  match url.data with
  | [] => false
  | c :: rest => c.isAlpha && spec_scheme_tail rest

/-- C6 (counterexample): `ftp://example.com` already has a scheme, yet the
code does not execute it unchanged — the planned navigation goes to
`https://ftp://example.com`, because `ensure_url_scheme` only recognizes the
prefixes `http://` and `https://`. -/
theorem claim_C6_counterexample :
    spec_has_scheme "ftp://example.com" = true ∧
    planAction 1440 900 "navigate" [("url", Value.str "ftp://example.com")] =
      Except.ok [Event.goto "https://ftp://example.com"] ∧
    ¬ "https://ftp://example.com" = "ftp://example.com" := by
  refine ⟨by decide, by decide, by decide⟩

/-- The navigate branch of the dispatch chain, reduced on a string url. -/
theorem planAction_navigate (w h : Int) (url : String) :
    planAction w h "navigate" [("url", Value.str url)] =
      (if ensure_url_scheme url = "" then
        Except.error "Missing url argument for navigate"
      else Except.ok [Event.goto (ensure_url_scheme url)]) := rfl

/-- A plan consisting of a single navigation always attempts that navigation
first, whether or not it raises. -/
theorem dispatchAction_single_goto (env : Event → Except String Unit) (w h : Int)
    (fname : String) (args : List (String × Value)) (u : String)
    (hp : planAction w h fname args = Except.ok [Event.goto u]) :
    ((dispatchAction env w h fname args).2).head? = Option.some (Event.goto u) := by
  rcases henv : env (Event.goto u) with m | v
  · have hr : runEvents env [Event.goto u] = ([Event.goto u], Option.some m) :=
      runEvents_cons_err env _ [] m henv
    rw [dispatchAction_of_run_err env w h fname args [Event.goto u] m hp (by rw [hr])]
    rw [hr]
    rfl
  · cases v
    have hr : runEvents env [Event.goto u] = ([Event.goto u], Option.none) := by
      rw [runEvents_cons_ok env _ [] henv]
      rfl
    rw [dispatchAction_of_run_ok env w h fname args [Event.goto u] hp (by rw [hr])]
    rw [hr]
    rfl

/-- C6 (amended, claim corrected): for every Navigate request — an empty url
yields Failed with no event attempted; a non-empty url that does not start
with `http://` or `https://` (rather than: "has no scheme") is attempted with
`https://` prepended; a url starting with `http://` or `https://` (rather
than: "has a scheme") is attempted unchanged. -/
theorem claim_C6_navigate (env : Event → Except String Unit) (w h : Int) (url : String) :
    (url = "" →
      dispatchAction env w h "navigate" [("url", Value.str url)] =
        ([("error", "Missing url argument for navigate")], [])) ∧
    (¬ url = "" → (pyStartsWith url "http://" || pyStartsWith url "https://") = false →
      ((dispatchAction env w h "navigate" [("url", Value.str url)]).2).head? =
        Option.some (Event.goto ("https://" ++ url))) ∧
    ((pyStartsWith url "http://" || pyStartsWith url "https://") = true →
      ((dispatchAction env w h "navigate" [("url", Value.str url)]).2).head? =
        Option.some (Event.goto url)) := by
  refine ⟨?_, ?_, ?_⟩
  · intro hempty
    subst hempty
    exact dispatchAction_of_plan_error env w h "navigate" [("url", Value.str "")]
      "Missing url argument for navigate" rfl
  · intro hne hsch
    have hens : ensure_url_scheme url = "https://" ++ url := by
      unfold ensure_url_scheme
      rw [hsch]
      rw [if_neg (by decide : ¬ false = true), if_neg hne]
    have hens_ne : ¬ ensure_url_scheme url = "" := by
      rw [hens]
      intro hcontra
      have hlen := congrArg String.length hcontra
      rw [String.length_append] at hlen
      have h8 : ("https://" : String).length = 8 := rfl
      have h0 : ("" : String).length = 0 := rfl
      omega
    refine dispatchAction_single_goto env w h "navigate" [("url", Value.str url)]
      ("https://" ++ url) ?_
    rw [planAction_navigate, if_neg hens_ne, hens]
  · intro hsch
    have hne : ¬ url = "" := by
      intro hcontra
      subst hcontra
      simp [pyStartsWith, pyStartsWithAux] at hsch
    have hens : ensure_url_scheme url = url := by
      unfold ensure_url_scheme
      rw [hsch]
      rw [if_pos rfl]
    have hens_ne : ¬ ensure_url_scheme url = "" := by
      rw [hens]
      exact hne
    refine dispatchAction_single_goto env w h "navigate" [("url", Value.str url)] url ?_
    rw [planAction_navigate, if_neg hens_ne, hens]

/-- C6 (witness): the amended claim instantiated on `example.com` (prefixing)
and `https://a` (unchanged) with a browser that accepts navigations. -/
theorem claim_C6_witness :
    (¬ "example.com" = "" ∧
      (pyStartsWith "example.com" "http://" || pyStartsWith "example.com" "https://") = false ∧
      ((dispatchAction (fun _ => Except.ok ()) 1440 900 "navigate"
          [("url", Value.str "example.com")]).2).head? =
        Option.some (Event.goto ("https://" ++ "example.com"))) ∧
    ((pyStartsWith "https://a" "http://" || pyStartsWith "https://a" "https://") = true ∧
      ((dispatchAction (fun _ => Except.ok ()) 1440 900 "navigate"
          [("url", Value.str "https://a")]).2).head? =
        Option.some (Event.goto "https://a")) :=
  ⟨⟨by decide, by decide,
    (claim_C6_navigate (fun _ => Except.ok ()) 1440 900 "example.com").2.1
      (by decide) (by decide)⟩,
   ⟨by decide,
    (claim_C6_navigate (fun _ => Except.ok ()) 1440 900 "https://a").2.2 (by decide)⟩⟩

/-! ## Claim C8 -/

/-- Browser oracle for the C8 counterexample: every click raises. -/
def C8_env : Event → Except String Unit := fun e =>
  match e with
  | Event.click _ _ => Except.error "boom"
  | _ => Except.ok ()

/-- C8 (counterexample): when the single input event of a `click_at` action
raises, the action produces a Failed result without performing any settle
step: its trace holds the failed click only — no quiescence wait, no pause —
refuting the claim that the settle step runs whether the input events succeed
or fail. -/
theorem claim_C8_counterexample :
    dispatchAction C8_env 1440 900 "click_at"
        [("x", Value.int 500), ("y", Value.int 500)] =
      ([("error", "boom")], [Event.click 720 450]) ∧
    ((dispatchAction C8_env 1440 900 "click_at"
        [("x", Value.int 500), ("y", Value.int 500)]).2).all
      (fun e => !isSettleEvent e) = true := by
  refine ⟨by decide, by decide⟩

/-- C8 (amended, claim corrected): the bounded settle step (network-quiescence
wait with any timeout swallowed, then a fixed pause) is performed exactly for
the actions whose argument validation and input events complete without
raising: a successful action's trace ends with the two settle events, while a
failed action's trace contains no settle event at all — on failure the settle
step is skipped and the Failed result is produced immediately. -/
theorem claim_C8_settle_on_success (env : Event → Except String Unit) (w h : Int)
    (fname : String) (args : List (String × Value)) :
    (lookupKey (dispatchAction env w h fname args).1 "error" = Option.none →
      ∃ pre, (dispatchAction env w h fname args).2 = pre ++ settleEvents ∧
        pre.all (fun e => !isSettleEvent e) = true) ∧
    (∀ m, lookupKey (dispatchAction env w h fname args).1 "error" = Option.some m →
      ((dispatchAction env w h fname args).2).all (fun e => !isSettleEvent e) = true) :=
  dispatchAction_settle env w h fname args

/-- C8 (witness): a successful `open_web_browser` dispatch ends with the
settle events. -/
theorem claim_C8_witness :
    lookupKey ((dispatchAction (fun _ => Except.ok ()) 1440 900
        "open_web_browser" []).1) "error" = Option.none ∧
    ∃ pre, (dispatchAction (fun _ => Except.ok ()) 1440 900 "open_web_browser" []).2 =
        pre ++ settleEvents ∧ pre.all (fun e => !isSettleEvent e) = true :=
  ⟨by decide,
    (claim_C8_settle_on_success (fun _ => Except.ok ()) 1440 900
        "open_web_browser" []).1 (by decide)⟩

/-! ## Claim C9 -/

/-- C9: in a batch with no safety rejection, every action request yields
exactly one result entry — its own dispatch outcome in request order — so an
exception raised while validating arguments or performing input events is
caught and becomes that action's Failed result while the remaining actions of
the batch still execute; and a raise with message m during planning yields
exactly the result `error: m` with no event attempted. -/
theorem claim_C9_exceptions_become_results (env : Event → Except String Unit)
    (approve : Nat → Bool) (parts : List Part) (w h : Int)
    (hterm : (execute_function_calls env approve parts w h).2.1 = false) :
    (execute_function_calls env approve parts w h).1 =
      (functionCallsOf parts).map (fun c =>
        (c.name, (dispatchAction env w h c.name c.args).1,
          if (safetyDecisionOf c.args).isSome then [("safety_acknowledgement", "true")]
          else [])) ∧
    (∀ fname args m, planAction w h fname args = Except.error m →
      dispatchAction env w h fname args = ([("error", m)], [])) :=
  ⟨execCallsFrom_no_term env approve w h (functionCallsOf parts) 0 hterm,
    fun fname args m hm => dispatchAction_of_plan_error env w h fname args m hm⟩

/-- A batch whose first request raises a KeyError (missing coordinates) and
whose second request is a harmless no-op. -/
def C9_parts : List Part :=
  [Part.functionCall (FunctionCall.mk "click_at" []),
   Part.functionCall (FunctionCall.mk "open_web_browser" [])]

/-- C9 (witness): on the concrete batch, the failing first request gets its
error result and the second request still executes. -/
theorem claim_C9_witness :
    (execute_function_calls (fun _ => Except.ok ()) (fun _ => true)
        C9_parts 1440 900).2.1 = false ∧
    (execute_function_calls (fun _ => Except.ok ()) (fun _ => true)
        C9_parts 1440 900).1 =
      (functionCallsOf C9_parts).map (fun c =>
        (c.name, (dispatchAction (fun _ => Except.ok ()) 1440 900 c.name c.args).1,
          if (safetyDecisionOf c.args).isSome then [("safety_acknowledgement", "true")]
          else [])) :=
  ⟨by decide,
    (claim_C9_exceptions_become_results (fun _ => Except.ok ()) (fun _ => true)
        C9_parts 1440 900 (by decide)).1⟩

/-! ## Claim C10 -/

/-- C10: a `type_text_at` request whose text argument is the empty string
still plans the click, still plans the clear step (select-all plus delete)
exactly when clear_before_typing holds, still plans Enter exactly when
press_enter holds, and plans no character-typing event. -/
theorem claim_C10_empty_text (x y : Int) (press_enter clear_before_typing : Bool)
    (w h : Int) :
    planAction w h "type_text_at"
        [("x", Value.int x), ("y", Value.int y), ("text", Value.str ""),
         ("press_enter", Value.bool press_enter),
         ("clear_before_typing", Value.bool clear_before_typing)] =
      Except.ok ([Event.click (denormalize_x x w) (denormalize_y y h)] ++
        (if clear_before_typing then [Event.keyPress "Meta+A", Event.keyPress "Backspace"]
         else []) ++
        (if press_enter then [Event.keyPress "Enter"] else [])) ∧
    (([Event.click (denormalize_x x w) (denormalize_y y h)] ++
        (if clear_before_typing then [Event.keyPress "Meta+A", Event.keyPress "Backspace"]
         else []) ++
        (if press_enter then [Event.keyPress "Enter"] else [])).all
      (fun e => !isTypeTextEvent e)) = true := by
  cases clear_before_typing <;> cases press_enter <;> exact ⟨rfl, rfl⟩


/-! ## Claim C2 -/

/-- C2: when a model turn's batch contains a safety decision the operator
rejects, the dispatcher stops at the rejected request: results exist exactly
up to and including it, the event trace equals that of the requests before the
rejected one (so no action after it executes, not even the rejected one), the
rejected action's response bundle — carrying acknowledgement "false" and the
termination marker — is the last bundle of the user content appended to the
history reported back to the model, and the session ends with reason
UserTerminated. -/
theorem claim_C2_safety_rejection (E : LoopEnv) (w h : Int) (m i : Nat)
    (contents : List Content) (log : List (List Content))
    (hterm : (execute_function_calls E.browser (E.approve i) (E.model contents) w h).2.1 =
      true) :
    run_agent_loop_aux E w h (m + 1) i contents log =
      (contents ++
        [Content.mk "model" (E.model contents),
         Content.mk "user"
           ((get_function_responses (E.pageAt i)
             (execute_function_calls E.browser (E.approve i) (E.model contents) w h).1).map
               Part.functionResponse)],
       DoneReason.UserTerminated, log ++ [contents]) ∧
    ∃ j, ∃ hj : j < (functionCallsOf (E.model contents)).length,
      (safetyDecisionOf ((functionCallsOf (E.model contents)).get ⟨j, hj⟩).args).isSome =
        true ∧
      (execute_function_calls E.browser (E.approve i) (E.model contents) w h).1.length =
        j + 1 ∧
      (execute_function_calls E.browser (E.approve i) (E.model contents) w h).2.2 =
        (execCallsFrom E.browser (E.approve i) w h
          ((functionCallsOf (E.model contents)).take j) 0).2.2 ∧
      ((get_function_responses (E.pageAt i)
          (execute_function_calls E.browser (E.approve i) (E.model contents) w h).1).getLast?) =
        Option.some
          (FunctionResponse.mk ((functionCallsOf (E.model contents)).get ⟨j, hj⟩).name
            [("url", (E.pageAt i).url), ("terminated_by_user", "True"),
             ("safety_acknowledgement", "false")]
            (E.pageAt i).screenshot) := by
  have hfc : hasFunctionCall (E.model contents) = true := by
    by_contra hn
    have hn2 : functionCallsOf (E.model contents) = [] := by
      rcases hni : functionCallsOf (E.model contents) with _ | ⟨c, cs⟩
      · rfl
      · exact absurd ((hasFunctionCall_iff (E.model contents)).mpr (by rw [hni]; simp)) hn
    have hfalse :
        (execute_function_calls E.browser (E.approve i) (E.model contents) w h).2.1 = false := by
      show (execCallsFrom E.browser (E.approve i) w h
        (functionCallsOf (E.model contents)) 0).2.1 = false
      rw [hn2]
      rfl
    rw [hfalse] at hterm
    cases hterm
  refine ⟨run_agent_loop_aux_succ_term E w h m i contents log hfc hterm, ?_⟩
  obtain ⟨j, hj, hsome, hlen, hlast, htr⟩ :=
    execCallsFrom_term E.browser (E.approve i) w h (functionCallsOf (E.model contents)) 0 hterm
  refine ⟨j, hj, hsome, hlen, htr, ?_⟩
  unfold get_function_responses
  rw [getLast?_map_eq]
  have hlast2 :
      (execute_function_calls E.browser (E.approve i) (E.model contents) w h).1.getLast? =
        Option.some (((functionCallsOf (E.model contents)).get ⟨j, hj⟩).name,
          [("terminated_by_user", "True")], [("safety_acknowledgement", "false")]) := hlast
  rw [hlast2]
  rfl

/-- Session oracles for the C2 witness: the model always requests one
navigation guarded by a safety decision and the operator always rejects. -/
def C2_env : LoopEnv where
  model := fun _ =>
    [Part.functionCall
      (FunctionCall.mk "navigate"
        [("url", Value.str "example.com"),
         ("safety_decision", Value.dict [("explanation", "sensitive")])])]
  browser := fun _ => Except.ok ()
  approve := fun _ _ => false
  pageAt := fun _ => PageState.mk "https://start" [9]

/-- C2 (witness): on the concrete rejecting session, the first batch
terminates and the loop ends with reason UserTerminated. -/
theorem claim_C2_witness :
    (execute_function_calls C2_env.browser (C2_env.approve 0)
        (C2_env.model (initial_contents "goal")) 1440 900).2.1 = true ∧
    (run_agent_loop_aux C2_env 1440 900 (9 + 1) 0 (initial_contents "goal") []).2.1 =
      DoneReason.UserTerminated := by
  refine ⟨by decide, ?_⟩
  rw [(claim_C2_safety_rejection C2_env 1440 900 9 0 (initial_contents "goal") []
    (by decide)).1]

/-! ## Claim C3 -/

/-- C3: if the model keeps returning function-call turns and no batch ever
terminates at the safety gate, the goal session ends with reason
TurnLimitReached and the remote model is invoked exactly `turn_limit = 10`
times — never an 11th. -/
theorem claim_C3_turn_limit (E : LoopEnv) (user_goal : String)
    (hfc : ∀ c, hasFunctionCall (E.model c) = true)
    (hnt : ∀ i c, (execute_function_calls E.browser (E.approve i) (E.model c)
        SCREEN_WIDTH SCREEN_HEIGHT).2.1 = false) :
    (run_agent_loop E user_goal).2.1 = DoneReason.TurnLimitReached ∧
    (run_agent_loop E user_goal).2.2.length = turn_limit := by
  obtain ⟨hr, hl⟩ := run_agent_loop_aux_turnlimit E SCREEN_WIDTH SCREEN_HEIGHT hfc hnt
    turn_limit 0 (initial_contents user_goal) []
  exact ⟨hr, by simpa using hl⟩

/-- Session oracles for the C3 witness: the model always requests a harmless
no-op action. -/
def C3_env : LoopEnv where
  model := fun _ => [Part.functionCall (FunctionCall.mk "open_web_browser" [])]
  browser := fun _ => Except.ok ()
  approve := fun _ _ => true
  pageAt := fun _ => PageState.mk "https://g" []

/-- C3 (witness): the concrete never-terminating session stops at the turn
limit after exactly 10 model invocations. -/
theorem claim_C3_witness :
    (run_agent_loop C3_env "goal").2.1 = DoneReason.TurnLimitReached ∧
    (run_agent_loop C3_env "goal").2.2.length = turn_limit :=
  claim_C3_turn_limit C3_env "goal" (fun _ => rfl) (fun _ _ => rfl)

/-! ## Claim C4 -/

/-- C4 (spec-modelled initialization): the history sent to the remote model on
its first invocation of every goal session is exactly one entry — a user
message whose sole part is the goal text. -/
theorem claim_C4_initial_history (E : LoopEnv) (user_goal : String) :
    (run_agent_loop E user_goal).2.2.head? =
      Option.some [Content.mk "user" [Part.text user_goal]] := by
  obtain ⟨tail, heq, hhead⟩ := run_agent_loop_aux_log E SCREEN_WIDTH SCREEN_HEIGHT
    turn_limit 0 (initial_contents user_goal) []
  show (run_agent_loop_aux E SCREEN_WIDTH SCREEN_HEIGHT turn_limit 0
    (initial_contents user_goal) []).2.2.head? = _
  rw [heq]
  simpa using hhead (by decide)

/-! ## Claim C7 -/

/-- C7: for every executed batch, the response builder yields exactly one
response bundle per result entry, in the same order (the bundle names repeat
the result names positionally), and every bundle carries the page URL captured
once for the batch under its `url` key together with the identical screenshot
bytes. -/
theorem claim_C7_responses (env : Event → Except String Unit) (approve : Nat → Bool)
    (parts : List Part) (w h : Int) (page : PageState) :
    (get_function_responses page (execute_function_calls env approve parts w h).1).length =
      (execute_function_calls env approve parts w h).1.length ∧
    (get_function_responses page (execute_function_calls env approve parts w h).1).map
        (fun fr => fr.name) =
      (execute_function_calls env approve parts w h).1.map (fun r => r.1) ∧
    (∀ fr ∈ get_function_responses page (execute_function_calls env approve parts w h).1,
      lookupKey fr.response "url" = Option.some page.url ∧
        fr.screenshot = page.screenshot) := by
  refine ⟨by simp [get_function_responses], by simp [get_function_responses], ?_⟩
  intro fr hfr
  rw [get_function_responses, List.mem_map] at hfr
  obtain ⟨r, hr, hfr⟩ := hfr
  subst hfr
  have hkeys := execCallsFrom_no_url_key env approve w h (functionCallsOf parts) 0 r hr
  constructor
  · show lookupKey (dictUpdate (dictUpdate [("url", page.url)] r.2.1) r.2.2) "url" = _
    rw [lookupKey_dictUpdate_ne _ _ _ hkeys.2, lookupKey_dictUpdate_ne _ _ _ hkeys.1]
    rfl
  · rfl

/-- C7 (witness): on a concrete one-action batch, the single bundle carries
the captured URL and screenshot bytes. -/
theorem claim_C7_witness :
    lookupKey (FunctionResponse.mk "open_web_browser" [("url", "https://page")] [1, 2]).response
        "url" = Option.some "https://page" ∧
    (FunctionResponse.mk "open_web_browser" [("url", "https://page")] [1, 2]).screenshot =
      [1, 2] :=
  (claim_C7_responses (fun _ => Except.ok ()) (fun _ => true)
      [Part.functionCall (FunctionCall.mk "open_web_browser" [])] 1440 900
      (PageState.mk "https://page" [1, 2])).2.2
    (FunctionResponse.mk "open_web_browser" [("url", "https://page")] [1, 2]) (by decide)

end GeminiDesktop
